import Mathlib

/-!
Flux-Frontend: the socket session of AdminLayout and the view model of ProductPage.

Shallow embedding of

* `src/pages/layouts/AdminLayout.jsx`: the effect run at mount (`socket.connect()`,
  the three handlers `handleConnect`, `handleToast`, `handleError`, their
  registration) and the cleanup it returns;
* `src/pages/userPages/ProductListPage.jsx`: `isLoggedIn`, `handleAddToCart`,
  `handleSortChange`, the `columns` of the table and `showProducts`.

JavaScript values are modelled by `JSVal` (the primitive values that JSON can carry,
numbers restricted to integers).  Side effects are modelled by explicit state passing:
every call on the transport, on the alert surface, on the console and on the router
is appended to a log of the state.

The prices of the products are values of a linearly ordered type that is a parameter,
and the functions `toLowerCase`, number `toString` and `compareAlphanumeric` that the
table calls are parameters too (`Builtins`): the theorems about the product list hold
for every choice of them.  Strings are compared and searched by UTF-16 code units.
-/

namespace Flux

/-! ## JavaScript values -/

/-- Primitive JavaScript values: `undefined`, `null`, booleans, integer numbers, strings.
A field that is absent from an object reads as `undefined`. -/
inductive JSVal where
  | undefined
  | null
  | bool (b : Bool)
  | num (n : Int)
  | str (s : String)
deriving DecidableEq, Repr

namespace JSVal

/-- JavaScript truthiness (`ToBoolean`): `undefined`, `null`, `false`, `0` and `''`
are falsy, every other value is truthy. -/
def truthy : JSVal → Bool
  | undefined => false
  | null => false
  | bool b => b
  | num n => decide (n ≠ 0)
  | str s => decide (s ≠ "")

/-- The JavaScript expression `a || b`: `a` when `a` is truthy, else `b`. -/
def orElse (a b : JSVal) : JSVal := if a.truthy then a else b

/-- Conversion of a value to a property key (`ToPropertyKey`), as in `obj[v]`. -/
def toKey : JSVal → String
  | undefined => "undefined"
  | null => "null"
  | bool true => "true"
  | bool false => "false"
  | num n => toString n
  | str s => s

end JSVal

/-! ## AdminLayout.jsx -/

/-- The `user` object of the user store, with the two fields read by `AdminLayout`. -/
structure User where
  id : JSVal
  role_name : JSVal
deriving DecidableEq, Repr

/-- The argument object handed to a listener: `data` of a `'toast'` event
(`data.type`, `data.message`) or `err` of a `'connect_error'` event (`err.message`). -/
structure Payload where
  type : JSVal
  message : JSVal
deriving DecidableEq, Repr

/-- The three functions created by the effect of `AdminLayout` (lines 18 to 31).
`handleConnect` closes over the `user` constant of the render that ran the effect. -/
inductive Code where
  | handleConnect (user : Option User)
  | handleToast
  | handleError
deriving DecidableEq, Repr

/-- A function object: an identity (`===` on functions compares identities) and its body. -/
structure Closure where
  id : Nat
  code : Code
deriving DecidableEq, Repr

/-- A call on the `socket` object. -/
inductive SocketCall where
  | connect
  | disconnect
  | on (event : String) (handler : Closure)
  | off (event : String) (handler : Closure)
  | emit (event : String) (args : List JSVal)
deriving DecidableEq, Repr

/-- A call on the alert surface: `toast[category](message)`. -/
structure Alert where
  category : String
  message : JSVal
deriving DecidableEq, Repr

/-- State observed by `AdminLayout`: the user store, the transport (its listener
registry and the log of calls made on it), the alert surface log and the console log.
`nextId` is the identity given to the next function object that is created. -/
structure World where
  store : Option User
  nextId : Nat
  listeners : List (String × Closure)
  calls : List SocketCall
  alerts : List Alert
  console : List (List JSVal)
deriving DecidableEq, Repr

/-- A world with a fresh transport: no listener, no call made, nothing displayed. -/
def World.init (store : Option User) : World :=
  { store := store, nextId := 0, listeners := [], calls := [], alerts := [], console := [] }

/-- How a synchronous call of a listener ends. -/
inductive Outcome where
  | returned
  | threw (error : String)
deriving DecidableEq, Repr

/-- Modelled from the spec: `socket.connect()` of the real-time transport (`@/socket`);
the connection is opened asynchronously, its acknowledgement arrives later as a
`'connect'` event. -/
def socketConnect (w : World) : World :=
  { w with calls := w.calls ++ [SocketCall.connect] }

/-- Modelled from the spec: `socket.disconnect()` of the real-time transport. -/
def socketDisconnect (w : World) : World :=
  { w with calls := w.calls ++ [SocketCall.disconnect] }

/-- Modelled from the spec: `socket.emit(channelName, payload?)` of the real-time
transport. -/
def socketEmit (event : String) (args : List JSVal) (w : World) : World :=
  { w with calls := w.calls ++ [SocketCall.emit event args] }

/-- Modelled from the spec: `socket.on(eventName, handler)` of the real-time transport:
the handler is added after the listeners already registered. -/
def socketOn (event : String) (handler : Closure) (w : World) : World :=
  { w with
    listeners := w.listeners ++ [(event, handler)]
    calls := w.calls ++ [SocketCall.on event handler] }

/-- Modelled from the spec: `socket.off(eventName, handler)` of the real-time transport:
the first registration of this handler under this event name is removed. -/
def socketOff (event : String) (handler : Closure) (w : World) : World :=
  { w with
    listeners := w.listeners.erase (event, handler)
    calls := w.calls ++ [SocketCall.off event handler] }

/-- Modelled from the spec: the alert surface (`toast` of `sonner`) as the spec gives it,
with the four categories info, success, warning, error as its callable members. -/
def alertSurface (key : String) : Bool :=
  decide (key ∈ ["info", "success", "warning", "error"])

/-- Lines 18 to 23: `handleConnect`.  It is an `async` function: when `user` is `null`
the read of `user.role_name` rejects the returned promise after `'join-admin'` was
emitted, and nothing is thrown to the caller. -/
def handleConnect (user : Option User) (w : World) : World × Outcome :=
  let w1 := socketEmit "join-admin" [] w
  match user with
  | none => (w1, Outcome.returned)
  | some u =>
    if u.role_name = JSVal.str "staff" then
      (socketEmit "join-staff" [u.id] w1, Outcome.returned)
    else
      (w1, Outcome.returned)

/-- Lines 25 to 27: `handleToast`, `toast[data.type || 'info'](data.message)`.
`toast` tells which keys of the alert surface hold a callable member; calling a
member that does not exist throws a `TypeError`, as does reading `data.type`
when no argument is passed. -/
def handleToast (toast : String → Bool) (data : Option Payload) (w : World) :
    World × Outcome :=
  match data with
  | none => (w, Outcome.threw "TypeError")
  | some d =>
    let key := (d.type.orElse (JSVal.str "info")).toKey
    if toast key then
      ({ w with alerts := w.alerts ++ [{ category := key, message := d.message }] },
        Outcome.returned)
    else
      (w, Outcome.threw "TypeError")

/-- Lines 29 to 31: `handleError`, `console.error('❌ Socket connection error:', err.message)`. -/
def handleError (err : Option Payload) (w : World) : World × Outcome :=
  match err with
  | none => (w, Outcome.threw "TypeError")
  | some e =>
    ({ w with console := w.console ++ [[JSVal.str "❌ Socket connection error:", e.message]] },
      Outcome.returned)

/-- Calling a function object with the argument of an event. -/
def Closure.call (toast : String → Bool) (c : Closure) (arg : Option Payload) (w : World) :
    World × Outcome :=
  match c.code with
  | Code.handleConnect user => handleConnect user w
  | Code.handleToast => handleToast toast arg w
  | Code.handleError => handleError arg w

/-- An event of the transport: its name and the argument passed to the listeners
(`none` for `'connect'`, which passes no argument). -/
structure Event where
  name : String
  arg : Option Payload
deriving DecidableEq, Repr

/-- Runs listeners one after the other; a listener that throws ends the dispatch. -/
def runListeners (toast : String → Bool) (arg : Option Payload) :
    List Closure → World → World × Outcome
  | [], w => (w, Outcome.returned)
  | c :: cs, w =>
    match c.call toast arg w with
    | (w1, Outcome.returned) => runListeners toast arg cs w1
    | (w1, Outcome.threw e) => (w1, Outcome.threw e)

/-- Modelled from the spec: delivery of an event by the real-time transport: the
listeners registered under the event's name are called in registration order. -/
def deliver (toast : String → Bool) (e : Event) (w : World) : World × Outcome :=
  runListeners toast e.arg ((w.listeners.filter (fun p => p.1 = e.name)).map Prod.snd) w

/-- The three handlers created by one run of the effect, kept by its cleanup. -/
structure Handlers where
  handleConnect : Closure
  handleToast : Closure
  handleError : Closure
deriving DecidableEq, Repr

/-- Lines 15 to 36: the body of the effect, run with the `user` of the render. -/
def effect (user : Option User) (w : World) : World × Handlers :=
  let w1 := socketConnect w
  let hc : Closure := { id := w1.nextId, code := Code.handleConnect user }
  let ht : Closure := { id := w1.nextId + 1, code := Code.handleToast }
  let he : Closure := { id := w1.nextId + 2, code := Code.handleError }
  let w2 := { w1 with nextId := w1.nextId + 3 }
  let w3 := socketOn "connect" hc w2
  let w4 := socketOn "toast" ht w3
  let w5 := socketOn "connect_error" he w4
  (w5, { handleConnect := hc, handleToast := ht, handleError := he })

/-- Lines 39 to 45: the cleanup returned by the effect. -/
def cleanup (h : Handlers) (w : World) : World :=
  let w1 := socketOff "connect" h.handleConnect w
  let w2 := socketOff "toast" h.handleToast w1
  let w3 := socketOff "connect_error" h.handleError w2
  socketDisconnect w3

/-- Line 13 and lines 15 to 46: mounting reads `user` from the store and runs the effect. -/
def mount (w : World) : World × Handlers := effect w.store w

/-- What happens to a mounted `AdminLayout`: the transport delivers an event, or the
user store is set to a new value.  The latter renders the component again; the
dependency list of the effect is `[]`, so the effect is not run again. -/
inductive Step where
  | event (e : Event)
  | setUser (u : Option User)
deriving DecidableEq, Repr

/-- One step of a mounted session. -/
def step (toast : String → Bool) (s : Step) (w : World) : World :=
  match s with
  | Step.event e => (deliver toast e w).1
  | Step.setUser u => { w with store := u }

/-- A sequence of steps of a mounted session. -/
def run (toast : String → Bool) : List Step → World → World
  | [], w => w
  | s :: ss, w => run toast ss (step toast s w)

/-- The transport events of a sequence of steps. -/
def transportEvents : List Step → List Event
  | [] => []
  | Step.event e :: ss => e :: transportEvents ss
  | Step.setUser _ :: ss => transportEvents ss

/-- The emissions among the calls made on the transport. -/
def emissions : List SocketCall → List (String × List JSVal)
  | [] => []
  | SocketCall.emit ev args :: cs => (ev, args) :: emissions cs
  | _ :: cs => emissions cs

/-- The emissions a `'connect'` handler closing over `user` makes. -/
def joinsFor (user : Option User) : List (String × List JSVal) :=
  match user with
  | some u =>
    if u.role_name = JSVal.str "staff" then [("join-admin", []), ("join-staff", [u.id])]
    else [("join-admin", [])]
  | none => [("join-admin", [])]

/-! ## ProductListPage.jsx -/

/-- A product of the fetched collection: `id`, `name` (a string) and `price` (a number).
The type `ν` of the numbers is a parameter: the code compares prices with `===` and
`>` only, so any linearly ordered type stands for the JSON numbers. -/
structure Product (ν : Type) where
  id : Nat
  name : String
  price : ν
deriving DecidableEq, Repr

/-- An entry of the sorting state of the table: `{ id, desc }`. -/
structure ColumnSort where
  id : String
  desc : Bool
deriving DecidableEq, Repr

/-- State read and written by `ProductPage`: the `user` of the user store, the three
`useState` cells (lines 20 to 22), the fetched `products` (line 25) and the log of the
calls of `navigate`. -/
structure PageState (ν : Type) where
  user : Option User
  globalFilter : String
  sorting : List ColumnSort
  showDropdown : Bool
  products : List (Product ν)
  navigations : List String
deriving DecidableEq, Repr

/-- Line 18: `const isLoggedIn = !!user`. -/
def isLoggedIn {ν : Type} (st : PageState ν) : Bool := st.user.isSome

/-- Lines 66 to 71: `handleAddToCart`. -/
def handleAddToCart {ν : Type} (st : PageState ν) : PageState ν :=
  if !isLoggedIn st then
    { st with navigations := st.navigations ++ ["/login"] }
  else
    st

/-- Lines 73 to 88: `handleSortChange`; the `switch` compares with `===`. -/
def handleSortChange {ν : Type} (criteria : JSVal) (st : PageState ν) : PageState ν :=
  let st1 :=
    if criteria = JSVal.str "priceDesc" then
      { st with sorting := [{ id := "price", desc := true }] }
    else if criteria = JSVal.str "priceAsc" then
      { st with sorting := [{ id := "price", desc := false }] }
    else if criteria = JSVal.str "nameAsc" then
      { st with sorting := [{ id := "name", desc := false }] }
    else
      { st with sorting := [] }
  { st1 with showDropdown := false }

/-- Line 137: `onChange` of the search input, `setGlobalFilter(e.target.value)`. -/
def setGlobalFilter {ν : Type} (text : String) (st : PageState ν) : PageState ν :=
  { st with globalFilter := text }

/-- Lines 38 to 50: the accessor columns registered with the table. -/
def columns : List String := ["name", "price"]

/-- The functions that the table calls and that are taken as given: `toLowerCase` of
strings, `toString` of numbers, and the comparison that the table library applies to
strings with digits (`compareAlphanumeric`). -/
structure Builtins (ν : Type) where
  toLowerCase : String → String
  numberToString : ν → String
  compareAlphanumeric : String → String → Int

/-- The UTF-16 code units of a character. -/
def charUnits (c : Char) : List Nat :=
  if c.toNat < 65536 then [c.toNat]
  else [55296 + (c.toNat - 65536) / 1024, 56320 + (c.toNat - 65536) % 1024]

/-- The UTF-16 code units of a string: JavaScript compares and searches strings by
code units. -/
def codeUnits (s : String) : List Nat :=
  s.data.foldr (fun c units => charUnits c ++ units) []

/-- A row of the table: the product and its position in the collection. -/
structure Row (ν : Type) where
  index : Nat
  original : Product ν
deriving DecidableEq, Repr

/-- Modelled from the spec: the core row model of the data-table utility
(`@tanstack/react-table`, `getCoreRowModel`): one row per product, in the order of the
collection. -/
def coreRowsFrom {ν : Type} (start : Nat) : List (Product ν) → List (Row ν)
  | [] => []
  | p :: ps => { index := start, original := p } :: coreRowsFrom (start + 1) ps

/-- Modelled from the spec: `getCoreRowModel` of the data-table utility. -/
def getCoreRowModel {ν : Type} (products : List (Product ν)) : List (Row ν) :=
  coreRowsFrom 0 products

/-- Modelled from the spec: the text of a cell as the filter of the data-table utility
reads it, `row.getValue(columnId)?.toString()`; a column that does not exist has no
value. -/
def cellText {ν : Type} (env : Builtins ν) (row : Row ν) (columnId : String) : Option String :=
  if columnId = "name" then some row.original.name
  else if columnId = "price" then some (env.numberToString row.original.price)
  else none

/-- Substring test on code units, `haystack.includes(needle)`. -/
def includes : List Nat → List Nat → Bool
  | [], needle => needle.isEmpty
  | c :: cs, needle => needle.isPrefixOf (c :: cs) || includes cs needle

/-- Modelled from the spec: the filter function `'includesString'` of the data-table
utility: substring match of the lower-cased filter value against the lower-cased text
of the cell. -/
def includesString {ν : Type} (env : Builtins ν) (row : Row ν) (columnId : String)
    (filterValue : String) : Bool :=
  match cellText env row columnId with
  | some text =>
    includes (codeUnits (env.toLowerCase text)) (codeUnits (env.toLowerCase filterValue))
  | none => false

/-- Modelled from the spec: a row passes the global filter when the filter function
accepts one of the columns registered for filtering. -/
def passesGlobalFilter {ν : Type} (env : Builtins ν) (globalFilter : String) (row : Row ν) :
    Bool :=
  columns.any (fun columnId => includesString env row columnId globalFilter)

/-- Modelled from the spec: `getFilteredRowModel` of the data-table utility: with no
rows or an empty filter value the rows are returned as they are, otherwise the rows
that pass the global filter, in order. -/
def getFilteredRowModel {ν : Type} (env : Builtins ν) (rows : List (Row ν))
    (globalFilter : String) : List (Row ν) :=
  if rows.isEmpty || globalFilter = "" then rows
  else rows.filter (passesGlobalFilter env globalFilter)

/-- Modelled from the spec: the basic comparison of two values, `a === b ? 0 : a > b ? 1 : -1`. -/
def compareBasic {α : Type} [DecidableEq α] [LT α] [DecidableRel (fun a b : α => a < b)]
    (a b : α) : Int :=
  if a = b then 0 else if b < a then 1 else -1

/-- The comparisons of the data-table utility among which a column picks one. -/
inductive SortingFn where
  | basic
  | text
  | alphanumeric
deriving DecidableEq, Repr

/-- The test `value.split(/([0-9]+)/).length > 1`: the string has a decimal digit. -/
def hasDigit (s : String) : Bool := s.data.any Char.isDigit

/-- Modelled from the spec: the comparison that the data-table utility picks for a
column (`getAutoSortingFn`).  It looks at the filtered rows from the eleventh on
(`flatRows.slice(10)`): a string with a digit there picks the alphanumeric
comparison, other strings there pick the text comparison, and with no string there
(at most ten rows, or a column of numbers) the basic comparison is picked. -/
def getAutoSortingFn {ν : Type} (filtered : List (Row ν)) (columnId : String) : SortingFn :=
  let firstRows := filtered.drop 10
  if columnId = "name" then
    if firstRows.any (fun row => hasDigit row.original.name) then SortingFn.alphanumeric
    else if firstRows.isEmpty then SortingFn.basic
    else SortingFn.text
  else SortingFn.basic

/-- Modelled from the spec: the comparison of two rows on one column, in ascending
order.  Prices are compared as numbers.  Names are compared as the picked comparison
says: basic compares the strings, text compares the lower-cased strings, alphanumeric
applies `compareAlphanumeric` to the lower-cased strings.  A column that does not
exist cannot be sorted. -/
def sortingFn {ν : Type} [LinearOrder ν] (env : Builtins ν) (filtered : List (Row ν))
    (columnId : String) (a b : Row ν) : Int :=
  if columnId = "price" then compareBasic a.original.price b.original.price
  else if columnId = "name" then
    match getAutoSortingFn filtered columnId with
    | SortingFn.basic => compareBasic (codeUnits a.original.name) (codeUnits b.original.name)
    | SortingFn.text =>
      compareBasic (codeUnits (env.toLowerCase a.original.name))
        (codeUnits (env.toLowerCase b.original.name))
    | SortingFn.alphanumeric =>
      env.compareAlphanumeric (env.toLowerCase a.original.name)
        (env.toLowerCase b.original.name)
  else 0

/-- Modelled from the spec: the comparator of the sorted row model: the first entry of
the sorting state that tells the two rows apart decides, reversed when the entry is
descending; rows that no entry tells apart keep the order of their indices. -/
def compareRows {ν : Type} [LinearOrder ν] (env : Builtins ν) (filtered : List (Row ν)) :
    List ColumnSort → Row ν → Row ν → Int
  | [], a, b => (a.index : Int) - (b.index : Int)
  | s :: ss, a, b =>
    let sortInt := sortingFn env filtered s.id a b
    if sortInt ≠ 0 then (if s.desc then -sortInt else sortInt)
    else compareRows env filtered ss a b

/-- Modelled from the spec: `getSortedRowModel` of the data-table utility: with no rows or
an empty sorting state the rows are returned as they are, otherwise they are sorted
(`Array.prototype.sort`, which is stable) with `compareRows` on the entries whose
column exists. -/
def getSortedRowModel {ν : Type} [LinearOrder ν] (env : Builtins ν) (rows : List (Row ν))
    (sorting : List ColumnSort) : List (Row ν) :=
  if rows.isEmpty || sorting.isEmpty then rows
  else
    let availableSorting := sorting.filter (fun s => decide (s.id ∈ columns))
    rows.insertionSort (fun a b => compareRows env rows availableSorting a b ≤ 0)

/-- Lines 52 to 62: the rows of the table built by `useReactTable` from `products`,
`columns` and the state `{ globalFilter, sorting }`. -/
def getRowModel {ν : Type} [LinearOrder ν] (env : Builtins ν) (st : PageState ν) :
    List (Row ν) :=
  getSortedRowModel env
    (getFilteredRowModel env (getCoreRowModel st.products) st.globalFilter) st.sorting

/-- Line 64: `showProducts = table.getRowModel().rows.map((row) => row.original)`. -/
def showProducts {ν : Type} [LinearOrder ν] (env : Builtins ν) (st : PageState ν) :
    List (Product ν) :=
  (getRowModel env st).map (fun row => row.original)

/-- The claim of the spec for the filter, in its words: the name contains the query as a
case-insensitive substring (both lower-cased). -/
def nameMatches {ν : Type} (env : Builtins ν) (q : String) (p : Product ν) : Prop :=
  codeUnits (env.toLowerCase q) <:+: codeUnits (env.toLowerCase p.name)

instance {ν : Type} (env : Builtins ν) (q : String) (p : Product ν) :
    Decidable (nameMatches env q p) := by
  unfold nameMatches; infer_instance

/-- The text of the price contains the query as a case-insensitive substring (both
lower-cased). -/
def priceMatches {ν : Type} (env : Builtins ν) (q : String) (p : Product ν) : Prop :=
  codeUnits (env.toLowerCase q) <:+: codeUnits (env.toLowerCase (env.numberToString p.price))

instance {ν : Type} (env : Builtins ν) (q : String) (p : Product ν) :
    Decidable (priceMatches env q p) := by
  unfold priceMatches; infer_instance

/-- The products that the query alone keeps, in the order of the collection: all of them
for the empty query, otherwise those whose name or whose price matches. -/
def filteredBy {ν : Type} (env : Builtins ν) (q : String) (products : List (Product ν)) :
    List (Product ν) :=
  if q = "" then products
  else products.filter (fun p => decide (nameMatches env q p ∨ priceMatches env q p))

/-- Lower-casing of the ASCII letters of a string. -/
def asciiLower (s : String) : String := String.mk (s.data.map Char.toLower)

/-- Built-ins for the samples, which have ASCII names without digits and small integer
prices: there `toLowerCase` lower-cases the ASCII letters, `toString` writes the
integer in decimal, and `compareAlphanumeric` is never called. -/
def sampleBuiltins : Builtins Int :=
  { toLowerCase := asciiLower
    numberToString := fun n => toString n
    compareAlphanumeric := fun _ _ => 0 }

/-- The product collection of the scenarios of the spec. -/
def sampleProducts : List (Product Int) :=
  [{ id := 1, name := "Hot Sauce", price := 10 }, { id := 2, name := "Mild Salsa", price := 5 }]

/-- A page state over a collection: nobody logged in, given query and sorting. -/
def pageOf (products : List (Product Int)) (q : String) (sorting : List ColumnSort) :
    PageState Int :=
  { user := none, globalFilter := q, sorting := sorting, showDropdown := false,
    products := products, navigations := [] }

/-- A page state over the sample collection: nobody logged in, given query and sorting. -/
def samplePage (q : String) (sorting : List ColumnSort) : PageState Int :=
  pageOf sampleProducts q sorting

/-- Two products whose names differ in the case of the first letter. -/
def twoNames : List (Product Int) :=
  [{ id := 1, name := "apple", price := 3 }, { id := 2, name := "Banana", price := 2 }]

/-- Eleven products, the same two names first. -/
def elevenNames : List (Product Int) :=
  [{ id := 1, name := "apple", price := 3 }, { id := 2, name := "Banana", price := 2 },
   { id := 3, name := "c", price := 1 }, { id := 4, name := "d", price := 1 },
   { id := 5, name := "e", price := 1 }, { id := 6, name := "f", price := 1 },
   { id := 7, name := "g", price := 1 }, { id := 8, name := "h", price := 1 },
   { id := 9, name := "i", price := 1 }, { id := 10, name := "j", price := 1 },
   { id := 11, name := "k", price := 1 }]

/-- The world with the user store set to `u`. -/
def World.withStore (u : Option User) (w : World) : World := { w with store := u }

/-- A staff session, user id 7. -/
def staffUser : User := { id := JSVal.num 7, role_name := JSVal.str "staff" }

/-- An admin session, user id 1. -/
def adminUser : User := { id := JSVal.num 1, role_name := JSVal.str "admin" }

/-- A toast event of kind success. -/
def paidToast : Event :=
  { name := "toast", arg := some { type := JSVal.str "success", message := JSVal.str "paid" } }

/-- A connection error event. -/
def timeoutError : Event :=
  { name := "connect_error",
    arg := some { type := JSVal.undefined, message := JSVal.str "timeout" } }

/-- The `'connect'` event; it passes no argument to the listeners. -/
def connectEvent : Event := { name := "connect", arg := none }

/-! ## Theorems: AdminLayout -/

/-- A handler of the layout never changes the listener registry. -/
theorem call_listeners (toast : String → Bool) (c : Closure) (arg : Option Payload) (w : World) :
    (c.call toast arg w).1.listeners = w.listeners := by
  unfold Closure.call
  cases c.code with
  | handleConnect user =>
    cases user with
    | none => rfl
    | some u =>
      simp only [handleConnect]
      split <;> rfl
  | handleToast =>
    cases arg with
    | none => rfl
    | some d =>
      simp only [handleToast]
      split <;> rfl
  | handleError =>
    cases arg <;> rfl

/-- Running listeners never changes the listener registry. -/
theorem runListeners_listeners (toast : String → Bool) (arg : Option Payload) :
    ∀ (cs : List Closure) (w : World), (runListeners toast arg cs w).1.listeners = w.listeners
  | [], _ => rfl
  | c :: cs, w => by
    have hc := call_listeners toast c arg w
    unfold runListeners
    rcases h : c.call toast arg w with ⟨w1, o⟩
    rw [h] at hc
    cases o with
    | returned =>
      simp only
      rw [runListeners_listeners toast arg cs w1]
      exact hc
    | threw e => exact hc

/-- Delivering an event never changes the listener registry. -/
theorem deliver_listeners (toast : String → Bool) (e : Event) (w : World) :
    (deliver toast e w).1.listeners = w.listeners :=
  runListeners_listeners toast e.arg _ w

/-- A step of a mounted session never changes the listener registry. -/
theorem step_listeners (toast : String → Bool) (s : Step) (w : World) :
    (step toast s w).listeners = w.listeners := by
  cases s with
  | event e => exact deliver_listeners toast e w
  | setUser u => rfl

/-- A sequence of steps never changes the listener registry. -/
theorem run_listeners (toast : String → Bool) :
    ∀ (t : List Step) (w : World), (run toast t w).listeners = w.listeners
  | [], _ => rfl
  | s :: ss, w => by
    unfold run
    rw [run_listeners toast ss, step_listeners]

/-- The registry after mounting on a transport that had no listener. -/
theorem mount_listeners_empty (w : World) :
    (mount { w with listeners := [] }).1.listeners =
      [("connect", { id := w.nextId, code := Code.handleConnect w.store }),
       ("toast", { id := w.nextId + 1, code := Code.handleToast }),
       ("connect_error", { id := w.nextId + 2, code := Code.handleError })] := rfl

/-- The emissions of a log of calls followed by another. -/
theorem emissions_append (a b : List SocketCall) :
    emissions (a ++ b) = emissions a ++ emissions b := by
  induction a with
  | nil => rfl
  | cons c cs ih =>
    cases c <;> simp [emissions, ih]

/-- The calls `handleConnect` adds to the log of the transport. -/
theorem handleConnect_calls (user : Option User) (w : World) :
    (handleConnect user w).1.calls =
      w.calls ++ (joinsFor user).map (fun p => SocketCall.emit p.1 p.2) := by
  cases user with
  | none => rfl
  | some u =>
    simp only [handleConnect, joinsFor]
    split <;> simp [socketEmit]

/-- C1 (as amended): for every notification event whose kind (`data.type`) is missing or
otherwise falsy, on every alert surface that has the member `info`, `handleToast`
returns without throwing and calls the alert surface exactly once, with category
"info" and the message of the event. -/
theorem handleToast_missing_kind (toast : String → Bool) (data : Payload) (w : World)
    (hinfo : toast "info" = true) (hkind : data.type.truthy = false) :
    handleToast toast (some data) w =
      ({ w with alerts := w.alerts ++ [{ category := "info", message := data.message }] },
        Outcome.returned) := by
  simp [handleToast, JSVal.orElse, hkind, JSVal.toKey, hinfo]

/-- Witness of C1 (as amended): an event without a kind, on the alert surface of the spec. -/
theorem handleToast_missing_kind_witness :
    alertSurface "info" = true ∧
    (JSVal.undefined).truthy = false ∧
    handleToast alertSurface (some { type := JSVal.undefined, message := JSVal.str "saved" })
        (World.init none) =
      ({ World.init none with
          alerts := [{ category := "info", message := JSVal.str "saved" }] },
        Outcome.returned) :=
  ⟨by decide, rfl,
    handleToast_missing_kind alertSurface
      { type := JSVal.undefined, message := JSVal.str "saved" } (World.init none)
      (by decide) rfl⟩

/-- Counterexample to C1 as stated: the kind "fatal" is none of info, success, warning,
error, and `handleToast` throws a `TypeError` without calling the alert surface. -/
theorem handleToast_unknown_kind_throws :
    JSVal.str "fatal" ∉ [JSVal.str "info", JSVal.str "success", JSVal.str "warning",
      JSVal.str "error"] ∧
    handleToast alertSurface (some { type := JSVal.str "fatal", message := JSVal.str "boom" })
        (World.init none) =
      (World.init none, Outcome.threw "TypeError") ∧
    (∀ toast : String → Bool,
      handleToast toast (some { type := JSVal.str "fatal", message := JSVal.str "boom" })
          (World.init none) ≠
        ({ World.init none with
            alerts := [{ category := "info", message := JSVal.str "boom" }] },
          Outcome.returned)) := by
  refine ⟨by decide, by decide, ?_⟩
  intro toast
  cases h : toast "fatal" <;>
    simp [handleToast, JSVal.orElse, JSVal.truthy, JSVal.toKey, h, World.init]

/-- C8: for every notification event whose kind is one of info, success, warning, error,
on every alert surface that has these four members, `handleToast` returns without
throwing and calls the alert surface exactly once, with the kind as category and the
message of the event unchanged. -/
theorem handleToast_known_kind (toast : String → Bool) (kind : String) (message : JSVal)
    (w : World)
    (hsurface : ∀ k ∈ ["info", "success", "warning", "error"], toast k = true)
    (hkind : kind ∈ ["info", "success", "warning", "error"]) :
    handleToast toast (some { type := JSVal.str kind, message := message }) w =
      ({ w with alerts := w.alerts ++ [{ category := kind, message := message }] },
        Outcome.returned) := by
  have hne : kind ≠ "" := by
    intro h
    subst h
    revert hkind
    decide
  simp [handleToast, JSVal.orElse, JSVal.truthy, hne, JSVal.toKey, hsurface kind hkind]

/-- Witness of C8: a warning on the alert surface of the spec. -/
theorem handleToast_known_kind_witness :
    handleToast alertSurface
        (some { type := JSVal.str "warning", message := JSVal.str "low stock" })
        (World.init none) =
      ({ World.init none with
          alerts := [{ category := "warning", message := JSVal.str "low stock" }] },
        Outcome.returned) :=
  handleToast_known_kind alertSurface "warning" (JSVal.str "low stock") (World.init none)
    (by decide) (by decide)

/-- What delivering `'connect'` does when the registry holds the three handlers of one
mount. -/
theorem deliver_connect_calls (toast : String → Bool) (store : Option User) (n : Nat)
    (w : World)
    (hl : w.listeners =
      [("connect", { id := n, code := Code.handleConnect store }),
       ("toast", { id := n + 1, code := Code.handleToast }),
       ("connect_error", { id := n + 2, code := Code.handleError })]) :
    (deliver toast { name := "connect", arg := none } w).1.calls =
      w.calls ++ (joinsFor store).map (fun p => SocketCall.emit p.1 p.2) := by
  unfold deliver
  rw [hl]
  have hf : (List.filter (fun p : String × Closure => decide (p.1 = "connect"))
      [("connect", { id := n, code := Code.handleConnect store }),
       ("toast", { id := n + 1, code := Code.handleToast }),
       ("connect_error", { id := n + 2, code := Code.handleError })]).map Prod.snd =
      [{ id := n, code := Code.handleConnect store }] := by
    simp [List.filter]
  simp only [hf, runListeners, Closure.call]
  have hr : (handleConnect store w).2 = Outcome.returned := by
    cases store with
    | none => rfl
    | some u =>
      simp only [handleConnect]
      split <;> rfl
  have hc := handleConnect_calls store w
  rcases h : handleConnect store w with ⟨w1, o⟩
  rw [h] at hr hc
  simp only at hr hc
  subst hr
  exact hc

/-- Running a single listener is calling it. -/
theorem runListeners_single (toast : String → Bool) (arg : Option Payload) (c : Closure)
    (w : World) : (runListeners toast arg [c] w).1 = (c.call toast arg w).1 := by
  unfold runListeners
  rcases h : c.call toast arg w with ⟨w1, o⟩
  cases o <;> simp [runListeners]

/-- The toast handler makes no call on the transport. -/
theorem handleToast_calls (toast : String → Bool) (arg : Option Payload) (w : World) :
    (handleToast toast arg w).1.calls = w.calls := by
  cases arg with
  | none => rfl
  | some d =>
    simp only [handleToast]
    split <;> rfl

/-- The error handler makes no call on the transport. -/
theorem handleError_calls (arg : Option Payload) (w : World) :
    (handleError arg w).1.calls = w.calls := by
  cases arg <;> rfl

/-- What delivering an event other than `'connect'` does to the calls on the transport
when the registry holds the three handlers of one mount: nothing. -/
theorem deliver_other_calls (toast : String → Bool) (store : Option User) (n : Nat)
    (w : World) (e : Event)
    (hl : w.listeners =
      [("connect", { id := n, code := Code.handleConnect store }),
       ("toast", { id := n + 1, code := Code.handleToast }),
       ("connect_error", { id := n + 2, code := Code.handleError })])
    (he : e.name ≠ "connect") :
    (deliver toast e w).1.calls = w.calls := by
  unfold deliver
  rw [hl]
  have h0 : ¬ ("connect" = e.name) := fun h => he h.symm
  by_cases h1 : "toast" = e.name
  · have h2 : ¬ ("connect_error" = e.name) := by
      rw [← h1]; decide
    simp only [List.filter, h0, h1, h2, decide_True, decide_False, List.map]
    rw [runListeners_single]
    exact handleToast_calls toast e.arg w
  · by_cases h2 : "connect_error" = e.name
    · simp only [List.filter, h0, h1, h2, decide_True, decide_False, List.map]
      rw [runListeners_single]
      exact handleError_calls e.arg w
    · simp only [List.filter, h0, h1, h2, decide_False, List.map, runListeners]

/-- C2: `handleConnect`, run with the session captured at mount, always returns and adds
to the calls on the transport exactly `emit('join-admin')` followed, if and only if
the role is the string "staff", by `emit('join-staff', user.id)`; and in a session
mounted on a transport without listeners every `'connect'` event, whatever happened
before it, adds exactly this sequence. -/
theorem handleConnect_join_sequence (toast : String → Bool) (u : User) (w : World)
    (t : List Step) :
    (handleConnect (some u) w).2 = Outcome.returned ∧
    (handleConnect (some u) w).1.calls =
      w.calls ++
        (if u.role_name = JSVal.str "staff" then
          [SocketCall.emit "join-admin" [], SocketCall.emit "join-staff" [u.id]]
        else [SocketCall.emit "join-admin" []]) ∧
    (deliver toast { name := "connect", arg := none }
        (run toast t (mount { w with listeners := [], store := some u }).1)).1.calls =
      (run toast t (mount { w with listeners := [], store := some u }).1).calls ++
        (if u.role_name = JSVal.str "staff" then
          [SocketCall.emit "join-admin" [], SocketCall.emit "join-staff" [u.id]]
        else [SocketCall.emit "join-admin" []]) := by
  refine ⟨?_, ?_, ?_⟩
  · simp only [handleConnect]
    split <;> rfl
  · rw [handleConnect_calls]
    simp only [joinsFor]
    split <;> rfl
  · rw [deliver_connect_calls toast (some u) w.nextId _
      ((run_listeners toast t _).trans (mount_listeners_empty { w with store := some u }))]
    simp only [joinsFor]
    split <;> rfl

/-- Steps among which the transport delivers no `'connect'` event leave the log of calls
on the transport as it is, when the registry holds the three handlers of one mount. -/
theorem run_no_connect_calls (toast : String → Bool) (store : Option User) (n : Nat) :
    ∀ (pre : List Step) (w : World),
      w.listeners =
        [("connect", { id := n, code := Code.handleConnect store }),
         ("toast", { id := n + 1, code := Code.handleToast }),
         ("connect_error", { id := n + 2, code := Code.handleError })] →
      (∀ e ∈ transportEvents pre, e.name ≠ "connect") →
      (run toast pre w).calls = w.calls
  | [], _, _, _ => rfl
  | Step.event e :: ss, w, hl, hpre => by
    have he : e.name ≠ "connect" := hpre e (by simp [transportEvents])
    have hss : ∀ e ∈ transportEvents ss, e.name ≠ "connect" := fun e1 h1 =>
      hpre e1 (by simp [transportEvents, h1])
    unfold run
    rw [run_no_connect_calls toast store n ss _
      ((step_listeners toast (Step.event e) w).trans hl) hss]
    exact deliver_other_calls toast store n w e hl he
  | Step.setUser u :: ss, w, hl, hpre => by
    unfold run
    rw [run_no_connect_calls toast store n ss _
      ((step_listeners toast (Step.setUser u) w).trans hl) hpre]
    rfl

/-- C3: in a session of `AdminLayout` on a transport without listeners, mounting only
calls `connect()` and registers the three handlers; as long as the transport has
delivered no `'connect'` event nothing has been emitted; at any later point an event
other than `'connect'` adds no call on the transport, and the cleanup emits nothing:
every join emission is made while a `'connect'` event is handled. -/
theorem no_join_before_connect (toast : String → Bool) (w : World) (pre t : List Step)
    (e : Event)
    (hpre : ∀ e1 ∈ transportEvents pre, e1.name ≠ "connect") (he : e.name ≠ "connect") :
    (mount { w with listeners := [] }).1.calls =
      w.calls ++ [SocketCall.connect,
        SocketCall.on "connect" (mount { w with listeners := [] }).2.handleConnect,
        SocketCall.on "toast" (mount { w with listeners := [] }).2.handleToast,
        SocketCall.on "connect_error" (mount { w with listeners := [] }).2.handleError] ∧
    emissions (mount { w with listeners := [] }).1.calls = emissions w.calls ∧
    emissions (run toast pre (mount { w with listeners := [] }).1).calls = emissions w.calls ∧
    (deliver toast e (run toast t (mount { w with listeners := [] }).1)).1.calls =
      (run toast t (mount { w with listeners := [] }).1).calls ∧
    emissions (cleanup (mount { w with listeners := [] }).2
        (run toast t (mount { w with listeners := [] }).1)).calls =
      emissions (run toast t (mount { w with listeners := [] }).1).calls := by
  have hm : (mount { w with listeners := [] }).1.calls =
      w.calls ++ [SocketCall.connect,
        SocketCall.on "connect" (mount { w with listeners := [] }).2.handleConnect,
        SocketCall.on "toast" (mount { w with listeners := [] }).2.handleToast,
        SocketCall.on "connect_error" (mount { w with listeners := [] }).2.handleError] := by
    simp [mount, effect, socketOn, socketConnect]
  have hme : emissions (mount { w with listeners := [] }).1.calls = emissions w.calls := by
    rw [hm, emissions_append]
    simp [emissions]
  refine ⟨hm, hme, ?_, ?_, ?_⟩
  · rw [run_no_connect_calls toast w.store w.nextId pre _ (mount_listeners_empty w) hpre]
    exact hme
  · exact deliver_other_calls toast w.store w.nextId _ e
      ((run_listeners toast t _).trans (mount_listeners_empty w)) he
  · simp only [cleanup, socketOff, socketDisconnect, emissions_append, List.append_assoc]
    simp [emissions]

/-- Witness of C3: a staff session that receives a toast and a connection error before
the first `'connect'`. -/
theorem no_join_before_connect_witness :
    emissions (run alertSurface [Step.event paidToast, Step.event timeoutError]
      (mount { World.init (some staffUser) with listeners := [] }).1).calls = [] :=
  (no_join_before_connect alertSurface (World.init (some staffUser))
    [Step.event paidToast, Step.event timeoutError] [] paidToast
    (by decide) (by decide)).2.2.1

/-- The alert calls a listener makes, and how it ends, do not depend on the world. -/
theorem call_alerts (toast : String → Bool) (c : Closure) (arg : Option Payload) :
    ∃ (x : List Alert) (o : Outcome), ∀ w : World,
      (c.call toast arg w).1.alerts = w.alerts ++ x ∧ (c.call toast arg w).2 = o := by
  unfold Closure.call
  cases c.code with
  | handleConnect user =>
    refine ⟨[], Outcome.returned, fun w => ?_⟩
    cases user with
    | none => simp [handleConnect, socketEmit]
    | some u =>
      simp only [handleConnect]
      split <;> simp [socketEmit]
  | handleToast =>
    cases arg with
    | none => exact ⟨[], Outcome.threw "TypeError", fun w => by simp [handleToast]⟩
    | some d =>
      cases h : toast (d.type.orElse (JSVal.str "info")).toKey with
      | true =>
        exact ⟨[{ category := (d.type.orElse (JSVal.str "info")).toKey, message := d.message }],
          Outcome.returned, fun w => by simp [handleToast, h]⟩
      | false =>
        exact ⟨[], Outcome.threw "TypeError", fun w => by simp [handleToast, h]⟩
  | handleError =>
    cases arg with
    | none => exact ⟨[], Outcome.threw "TypeError", fun w => by simp [handleError]⟩
    | some e => exact ⟨[], Outcome.returned, fun w => by simp [handleError]⟩

/-- The alert calls a list of listeners makes do not depend on the world. -/
theorem runListeners_alerts (toast : String → Bool) (arg : Option Payload) :
    ∀ cs : List Closure, ∃ x : List Alert, ∀ w : World,
      (runListeners toast arg cs w).1.alerts = w.alerts ++ x
  | [] => ⟨[], fun w => by simp [runListeners]⟩
  | c :: cs => by
    obtain ⟨x1, o, h1⟩ := call_alerts toast c arg
    obtain ⟨x2, h2⟩ := runListeners_alerts toast arg cs
    cases o with
    | returned =>
      refine ⟨x1 ++ x2, fun w => ?_⟩
      have ha := (h1 w).1
      have ho := (h1 w).2
      unfold runListeners
      rcases h : c.call toast arg w with ⟨w1, o1⟩
      rw [h] at ha ho
      simp only at ha ho
      subst ho
      simp only
      rw [h2 w1, ha, List.append_assoc]
    | threw e =>
      refine ⟨x1, fun w => ?_⟩
      have ha := (h1 w).1
      have ho := (h1 w).2
      unfold runListeners
      rcases h : c.call toast arg w with ⟨w1, o1⟩
      rw [h] at ha ho
      simp only at ha ho
      subst ho
      exact ha

/-- C4: for every registry of the transport (whose listeners were created before the
mount), mounting `AdminLayout`, letting any steps happen and running the cleanup
leaves the registry equal to what it was before the mount: the cleanup deregisters
`'connect'`, `'toast'`, `'connect_error'` with the very handlers that the mount
registered, all three before `disconnect()`; afterwards none of the three handlers
is registered under any name, a `'toast'` event makes exactly the alert calls it would
have made on the registry before the mount, and none at all when that registry had no
listener for `'toast'`. -/
theorem cleanup_restores_registry (toast : String → Bool) (w : World) (t : List Step)
    (data : Option Payload) (hfresh : ∀ p ∈ w.listeners, p.2.id < w.nextId) :
    (mount w).1.calls =
      w.calls ++ [SocketCall.connect,
        SocketCall.on "connect" (mount w).2.handleConnect,
        SocketCall.on "toast" (mount w).2.handleToast,
        SocketCall.on "connect_error" (mount w).2.handleError] ∧
    (cleanup (mount w).2 (run toast t (mount w).1)).calls =
      (run toast t (mount w).1).calls ++
        [SocketCall.off "connect" (mount w).2.handleConnect,
         SocketCall.off "toast" (mount w).2.handleToast,
         SocketCall.off "connect_error" (mount w).2.handleError,
         SocketCall.disconnect] ∧
    (cleanup (mount w).2 (run toast t (mount w).1)).listeners = w.listeners ∧
    (∀ name : String,
      (name, (mount w).2.handleConnect) ∉
          (cleanup (mount w).2 (run toast t (mount w).1)).listeners ∧
      (name, (mount w).2.handleToast) ∉
          (cleanup (mount w).2 (run toast t (mount w).1)).listeners ∧
      (name, (mount w).2.handleError) ∉
          (cleanup (mount w).2 (run toast t (mount w).1)).listeners) ∧
    (∃ x : List Alert,
      (deliver toast { name := "toast", arg := data }
          (cleanup (mount w).2 (run toast t (mount w).1))).1.alerts =
        (cleanup (mount w).2 (run toast t (mount w).1)).alerts ++ x ∧
      (deliver toast { name := "toast", arg := data } w).1.alerts = w.alerts ++ x) ∧
    (w.listeners.filter (fun p => p.1 = "toast") = [] →
      deliver toast { name := "toast", arg := data }
          (cleanup (mount w).2 (run toast t (mount w).1)) =
        (cleanup (mount w).2 (run toast t (mount w).1), Outcome.returned)) := by
  have hnot : ∀ (name : String) (c : Closure), w.nextId ≤ c.id → (name, c) ∉ w.listeners :=
    fun name c hc hmem => absurd (hfresh (name, c) hmem) (Nat.not_lt.mpr hc)
  have h1 := hnot "connect" (mount w).2.handleConnect (Nat.le_refl _)
  have h2 := hnot "toast" (mount w).2.handleToast (Nat.le_succ _)
  have h3 := hnot "connect_error" (mount w).2.handleError (Nat.le_add_right _ 2)
  have hrun : (run toast t (mount w).1).listeners =
      w.listeners ++ [("connect", (mount w).2.handleConnect), ("toast", (mount w).2.handleToast),
        ("connect_error", (mount w).2.handleError)] := by
    rw [run_listeners]
    simp [mount, effect, socketOn, socketConnect]
  have hl : (cleanup (mount w).2 (run toast t (mount w).1)).listeners = w.listeners := by
    simp only [cleanup, socketOff, socketDisconnect]
    rw [hrun, List.erase_append_right _ h1]
    have e1 : [("connect", (mount w).2.handleConnect), ("toast", (mount w).2.handleToast),
        ("connect_error", (mount w).2.handleError)].erase ("connect", (mount w).2.handleConnect) =
        [("toast", (mount w).2.handleToast), ("connect_error", (mount w).2.handleError)] := by
      simp
    rw [e1, List.erase_append_right _ h2]
    have e2 : [("toast", (mount w).2.handleToast),
        ("connect_error", (mount w).2.handleError)].erase ("toast", (mount w).2.handleToast) =
        [("connect_error", (mount w).2.handleError)] := by
      simp
    rw [e2, List.erase_append_right _ h3]
    simp
  refine ⟨?_, ?_, hl, ?_, ?_, ?_⟩
  · simp [mount, effect, socketOn, socketConnect]
  · simp [cleanup, socketOff, socketDisconnect]
  · intro name
    rw [hl]
    exact ⟨hnot name _ (Nat.le_refl _), hnot name _ (Nat.le_succ _),
      hnot name _ (Nat.le_add_right _ 2)⟩
  · obtain ⟨x, hx⟩ := runListeners_alerts toast data
      ((w.listeners.filter (fun p => p.1 = "toast")).map Prod.snd)
    refine ⟨x, ?_, ?_⟩
    · unfold deliver
      rw [hl]
      exact hx _
    · exact hx w
  · intro hnone
    unfold deliver
    rw [hl]
    simp only [hnone, List.map, runListeners]

/-- Witness of C4: a staff session mounted on a transport that already holds an older
listener, with a `'connect'` event before the cleanup. -/
theorem cleanup_restores_registry_witness :
    (cleanup
      (mount { World.init (some staffUser) with
        nextId := 1, listeners := [("connect_error", { id := 0, code := Code.handleError })] }).2
      (run alertSurface [Step.event connectEvent]
        (mount { World.init (some staffUser) with
          nextId := 1,
          listeners := [("connect_error", { id := 0, code := Code.handleError })] }).1)).listeners =
      [("connect_error", { id := 0, code := Code.handleError })] :=
  (cleanup_restores_registry alertSurface
    { World.init (some staffUser) with
      nextId := 1, listeners := [("connect_error", { id := 0, code := Code.handleError })] }
    [Step.event connectEvent] paidToast.arg (by decide)).2.2.1

/-- A listener never reads the user store: calling it commutes with setting the store. -/
theorem call_store (toast : String → Bool) (c : Closure) (arg : Option Payload) (w : World)
    (u : Option User) :
    c.call toast arg (w.withStore u) =
      ((c.call toast arg w).1.withStore u, (c.call toast arg w).2) := by
  unfold Closure.call
  cases c.code with
  | handleConnect user =>
    cases user with
    | none => rfl
    | some v =>
      simp only [handleConnect]
      split <;> rfl
  | handleToast =>
    cases arg with
    | none => rfl
    | some d =>
      simp only [handleToast]
      split <;> rfl
  | handleError =>
    cases arg <;> rfl

/-- Running listeners commutes with setting the store. -/
theorem runListeners_store (toast : String → Bool) (arg : Option Payload) (u : Option User) :
    ∀ (cs : List Closure) (w : World),
      runListeners toast arg cs (w.withStore u) =
        ((runListeners toast arg cs w).1.withStore u, (runListeners toast arg cs w).2)
  | [], _ => rfl
  | c :: cs, w => by
    unfold runListeners
    rw [call_store]
    rcases h : c.call toast arg w with ⟨w1, o⟩
    cases o with
    | returned =>
      simp only
      exact runListeners_store toast arg u cs w1
    | threw e => rfl

/-- Delivering an event commutes with setting the store. -/
theorem deliver_store (toast : String → Bool) (e : Event) (w : World) (u : Option User) :
    (deliver toast e (w.withStore u)).1 = (deliver toast e w).1.withStore u := by
  have h := runListeners_store toast e.arg u
    ((w.listeners.filter (fun p => p.1 = e.name)).map Prod.snd) w
  exact congrArg Prod.fst h

/-- Apart from the store, a sequence of steps acts as its transport events alone. -/
theorem run_transportEvents (toast : String → Bool) :
    ∀ (t : List Step) (w : World),
      (run toast t w).withStore none =
        (run toast ((transportEvents t).map Step.event) (w.withStore none)).withStore none
  | [], _ => rfl
  | Step.event e :: ss, w => by
    show (run toast ss (deliver toast e w).1).withStore none =
      (run toast ((transportEvents ss).map Step.event)
        (deliver toast e (w.withStore none)).1).withStore none
    rw [run_transportEvents toast ss, deliver_store]
  | Step.setUser u :: ss, w => by
    show (run toast ss (w.withStore u)).withStore none =
      (run toast ((transportEvents ss).map Step.event) (w.withStore none)).withStore none
    rw [run_transportEvents toast ss]
    rfl

/-- C10: two runs of a session that mount in the same world (hence with the same session
read from the store) and receive the same transport events make the same calls on
the transport, in particular the same join emissions, however differently the store
is set after the mount in the two runs. -/
theorem joins_fixed_at_mount (toast : String → Bool) (w : World) (t1 t2 : List Step)
    (hsame : transportEvents t1 = transportEvents t2) :
    (run toast t1 (mount w).1).calls = (run toast t2 (mount w).1).calls ∧
    emissions (run toast t1 (mount w).1).calls = emissions (run toast t2 (mount w).1).calls := by
  have h1 : (run toast t1 (mount w).1).calls =
      (run toast ((transportEvents t1).map Step.event) ((mount w).1.withStore none)).calls := by
    have h := congrArg World.calls (run_transportEvents toast t1 (mount w).1)
    exact h
  have h2 : (run toast t2 (mount w).1).calls =
      (run toast ((transportEvents t2).map Step.event) ((mount w).1.withStore none)).calls := by
    have h := congrArg World.calls (run_transportEvents toast t2 (mount w).1)
    exact h
  have hc : (run toast t1 (mount w).1).calls = (run toast t2 (mount w).1).calls := by
    rw [h1, h2, hsame]
  exact ⟨hc, by rw [hc]⟩

/-- Witness of C10: a staff session; in one run the store is set to an admin before the
`'connect'` event, in the other it is cleared after it; both runs emit the joins of the
staff session read at mount. -/
theorem joins_fixed_at_mount_witness :
    transportEvents [Step.setUser (some adminUser), Step.event connectEvent] =
      transportEvents [Step.event connectEvent, Step.setUser none] ∧
    emissions (run alertSurface [Step.setUser (some adminUser), Step.event connectEvent]
        (mount (World.init (some staffUser))).1).calls =
      emissions (run alertSurface [Step.event connectEvent, Step.setUser none]
        (mount (World.init (some staffUser))).1).calls ∧
    emissions (run alertSurface [Step.event connectEvent, Step.setUser none]
        (mount (World.init (some staffUser))).1).calls =
      [("join-admin", []), ("join-staff", [JSVal.num 7])] :=
  ⟨rfl,
    (joins_fixed_at_mount alertSurface (World.init (some staffUser))
      [Step.setUser (some adminUser), Step.event connectEvent]
      [Step.event connectEvent, Step.setUser none] rfl).2,
    by decide⟩

/-! ## Theorems: ProductPage -/

/-- The substring test decides the infix relation. -/
theorem includes_iff (needle : List Nat) :
    ∀ hay : List Nat, includes hay needle = true ↔ needle <:+: hay
  | [] => by
    simp [includes, List.isEmpty_iff]
  | c :: cs => by
    simp [includes, List.infix_cons_iff, includes_iff needle cs]

/-- The originals of the core rows are the products, in order. -/
theorem coreRowsFrom_map {ν : Type} (start : Nat) (ps : List (Product ν)) :
    (coreRowsFrom start ps).map (fun row => row.original) = ps := by
  induction ps generalizing start with
  | nil => rfl
  | cons p ps ih => simp [coreRowsFrom, ih]

/-- A row passes the global filter exactly when the name or the price of its product
matches the query. -/
theorem passesGlobalFilter_iff {ν : Type} (env : Builtins ν) (q : String) (row : Row ν) :
    passesGlobalFilter env q row = true ↔
      nameMatches env q row.original ∨ priceMatches env q row.original := by
  simp [passesGlobalFilter, columns, includesString, cellText, includes_iff, nameMatches,
    priceMatches]

/-- The originals of the filtered rows are the products that the query alone keeps. -/
theorem getFilteredRowModel_map {ν : Type} (env : Builtins ν) (q : String)
    (ps : List (Product ν)) :
    (getFilteredRowModel env (getCoreRowModel ps) q).map (fun row => row.original) =
      filteredBy env q ps := by
  have hall : ∀ rows : List (Row ν),
      (rows.filter (passesGlobalFilter env q)).map (fun row => row.original) =
        (rows.map (fun row => row.original)).filter
          (fun p => decide (nameMatches env q p ∨ priceMatches env q p)) := by
    intro rows
    rw [List.filter_map]
    congr 1
    apply List.filter_congr
    intro row _
    have h := passesGlobalFilter_iff env q row
    simp only [Function.comp]
    by_cases hp : passesGlobalFilter env q row = true
    · rw [hp]; exact (decide_eq_true (h.mp hp)).symm
    · have hq : ¬ (nameMatches env q row.original ∨ priceMatches env q row.original) :=
        fun hq => hp (h.mpr hq)
      rw [Bool.not_eq_true] at hp
      rw [hp]; exact (decide_eq_false hq).symm
  unfold getFilteredRowModel filteredBy
  by_cases hq : q = ""
  · simp [hq, getCoreRowModel, coreRowsFrom_map]
  · cases ps with
    | nil => simp [hq, getCoreRowModel, coreRowsFrom]
    | cons a as =>
      have hne : (getCoreRowModel (a :: as)).isEmpty = false := by
        simp [getCoreRowModel, coreRowsFrom]
      simp only [hne, hq, decide_False, Bool.or_self, Bool.false_eq_true, if_false]
      rw [hall, getCoreRowModel, coreRowsFrom_map]

/-- With an empty sorting state the sorted row model is the rows given. -/
theorem getSortedRowModel_nil {ν : Type} [LinearOrder ν] (env : Builtins ν)
    (rows : List (Row ν)) : getSortedRowModel env rows [] = rows := by
  simp [getSortedRowModel]

/-- With no sort selected the visible products are those that the query alone keeps. -/
theorem showProducts_unsorted {ν : Type} [LinearOrder ν] (env : Builtins ν)
    (st : PageState ν) :
    showProducts env { st with sorting := [] } = filteredBy env st.globalFilter st.products := by
  show (getSortedRowModel env
    (getFilteredRowModel env (getCoreRowModel st.products) st.globalFilter) []).map
      (fun row => row.original) = _
  rw [getSortedRowModel_nil, getFilteredRowModel_map]

/-- The setter of the sorting state leaves the products and the query alone. -/
theorem handleSortChange_frame {ν : Type} (c : JSVal) (st : PageState ν) :
    (handleSortChange c st).products = st.products ∧
    (handleSortChange c st).globalFilter = st.globalFilter := by
  unfold handleSortChange
  split_ifs <;> exact ⟨rfl, rfl⟩

/-- The sorting state after `handleSortChange`. -/
theorem handleSortChange_sorting {ν : Type} (c : JSVal) (st : PageState ν) :
    (handleSortChange c st).sorting =
      if c = JSVal.str "priceDesc" then [{ id := "price", desc := true }]
      else if c = JSVal.str "priceAsc" then [{ id := "price", desc := false }]
      else if c = JSVal.str "nameAsc" then [{ id := "name", desc := false }]
      else [] := by
  unfold handleSortChange
  split_ifs <;> rfl

/-- C5 (as amended): for every product collection, whatever the prices, and every query,
with no sort selected the visible products are all the products when the query is
empty, and otherwise exactly the products, in the order of the collection, for which
the lower-cased name or the lower-cased text of the price contains the lower-cased query
as a substring, for whatever `toLowerCase` and number-to-text functions the page runs
with.  On the collection of the spec the query "hot" gives Hot Sauce. -/
theorem showProducts_filter {ν : Type} [LinearOrder ν] (env : Builtins ν) (st : PageState ν) :
    showProducts env { st with sorting := [] } =
      (if st.globalFilter = "" then st.products
       else st.products.filter (fun p =>
        decide (codeUnits (env.toLowerCase st.globalFilter) <:+:
            codeUnits (env.toLowerCase p.name) ∨
          codeUnits (env.toLowerCase st.globalFilter) <:+:
            codeUnits (env.toLowerCase (env.numberToString p.price))))) ∧
    showProducts env { st with sorting := [], globalFilter := "" } = st.products ∧
    showProducts sampleBuiltins (samplePage "hot" []) =
      [{ id := 1, name := "Hot Sauce", price := 10 }] := by
  refine ⟨?_, ?_, by decide⟩
  · rw [showProducts_unsorted]
    rfl
  · have h := showProducts_unsorted env { st with globalFilter := "" }
    simp only [filteredBy, if_true] at h
    exact h

/-- Counterexample to C5 as stated: on the collection of the spec and the query "5", the
visible list is Mild Salsa, whose name does not contain "5" (its price does): the
visible list is not the list of the products whose name contains the query. -/
theorem showProducts_matches_price :
    showProducts sampleBuiltins (samplePage "5" []) =
      [{ id := 2, name := "Mild Salsa", price := 5 }] ∧
    ¬ nameMatches sampleBuiltins "5" { id := 2, name := "Mild Salsa", price := 5 } ∧
    showProducts sampleBuiltins (samplePage "5" []) ≠
      sampleProducts.filter (fun p => decide (nameMatches sampleBuiltins "5" p)) := by
  refine ⟨by decide, by decide, by decide⟩

/-- C6: whatever the previous sorting state, `handleSortChange(c)` sets the sorting state
to a value fixed by `c` alone: price descending for 'priceDesc', price ascending for
'priceAsc', name ascending for 'nameAsc', empty for every other value; so it never
holds more than one entry, applying `c1` then `c2` gives the state that applying `c2`
alone gives, and the query is left unchanged. -/
theorem handleSortChange_replaces {ν : Type} (c1 c2 : JSVal) (st : PageState ν) :
    (handleSortChange (JSVal.str "priceDesc") st).sorting = [{ id := "price", desc := true }] ∧
    (handleSortChange (JSVal.str "priceAsc") st).sorting = [{ id := "price", desc := false }] ∧
    (handleSortChange (JSVal.str "nameAsc") st).sorting = [{ id := "name", desc := false }] ∧
    (c2 ∉ [JSVal.str "priceDesc", JSVal.str "priceAsc", JSVal.str "nameAsc"] →
      (handleSortChange c2 st).sorting = []) ∧
    (handleSortChange c2 st).sorting.length ≤ 1 ∧
    (handleSortChange c2 (handleSortChange c1 st)).sorting = (handleSortChange c2 st).sorting ∧
    handleSortChange c2 (handleSortChange c1 st) = handleSortChange c2 st ∧
    (handleSortChange c2 st).globalFilter = st.globalFilter := by
  have hcomp : handleSortChange c2 (handleSortChange c1 st) = handleSortChange c2 st := by
    unfold handleSortChange
    split_ifs <;> rfl
  refine ⟨rfl, rfl, rfl, ?_, ?_, by rw [hcomp], hcomp, (handleSortChange_frame c2 st).2⟩
  · intro h
    simp only [List.mem_cons, List.mem_singleton, List.not_mem_nil, or_false, not_or] at h
    rw [handleSortChange_sorting]
    simp [h.1, h.2.1, h.2.2]
  · rw [handleSortChange_sorting]
    split_ifs <;> simp

/-- Witness of C6: a value that is no criterion clears a previous price sort. -/
theorem handleSortChange_replaces_witness :
    (handleSortChange (JSVal.str "newest")
      (samplePage "hot" [{ id := "price", desc := true }])).sorting = [] :=
  (handleSortChange_replaces (JSVal.str "priceDesc") (JSVal.str "newest")
    (samplePage "hot" [{ id := "price", desc := true }])).2.2.2.1 (by decide)

/-- C9: when nobody is logged in (the `user` of the store is `null`), `handleAddToCart`
calls `navigate` exactly once, with the path '/login', and changes nothing else: the
query, the sorting state, the dropdown flag, the products and the visible list are
the same. -/
theorem handleAddToCart_unauthenticated {ν : Type} [LinearOrder ν] (env : Builtins ν)
    (st : PageState ν) (hanon : st.user = none) :
    (handleAddToCart st).navigations = st.navigations ++ ["/login"] ∧
    handleAddToCart st = { st with navigations := st.navigations ++ ["/login"] } ∧
    (handleAddToCart st).globalFilter = st.globalFilter ∧
    (handleAddToCart st).sorting = st.sorting ∧
    (handleAddToCart st).products = st.products ∧
    (handleAddToCart st).user = st.user ∧
    showProducts env (handleAddToCart st) = showProducts env st := by
  have h : handleAddToCart st = { st with navigations := st.navigations ++ ["/login"] } := by
    simp [handleAddToCart, isLoggedIn, hanon]
  rw [h]
  exact ⟨rfl, rfl, rfl, rfl, rfl, rfl, rfl⟩

/-- Witness of C9: nobody is logged in on the sample page. -/
theorem handleAddToCart_unauthenticated_witness :
    (samplePage "" []).user = none ∧
    (handleAddToCart (samplePage "" [])).navigations = ["/login"] :=
  ⟨rfl, (handleAddToCart_unauthenticated sampleBuiltins (samplePage "" []) rfl).1⟩

/-- The sign of the basic comparison on a linear order. -/
theorem compareBasic_sign {α : Type} [LinearOrder α] [d1 : DecidableEq α]
    [d2 : DecidableRel (fun a b : α => a < b)] (a b : α) :
    (@compareBasic α d1 _ d2 a b < 0 ↔ a < b) ∧
    (@compareBasic α d1 _ d2 a b = 0 ↔ a = b) ∧
    (0 < @compareBasic α d1 _ d2 a b ↔ b < a) := by
  unfold compareBasic
  rcases lt_trichotomy a b with h | h | h
  · have h1 : a ≠ b := ne_of_lt h
    have h2 : ¬ b < a := not_lt_of_lt h
    simp [h1, h2, h]
  · subst h
    simp
  · have h1 : a ≠ b := (ne_of_lt h).symm
    have h2 : ¬ a < b := not_lt_of_lt h
    simp [h1, h2, h]

/-- The comparator for one entry of the sorting state: by the column, then by index. -/
theorem compareRows_single {ν : Type} [LinearOrder ν] (env : Builtins ν)
    (filtered : List (Row ν)) (s : ColumnSort) (a b : Row ν) :
    compareRows env filtered [s] a b ≤ 0 ↔
      (if s.desc = true then 0 < sortingFn env filtered s.id a b
        else sortingFn env filtered s.id a b < 0) ∨
      (sortingFn env filtered s.id a b = 0 ∧ a.index ≤ b.index) := by
  simp only [compareRows]
  generalize sortingFn env filtered s.id a b = k
  cases s.desc
  · simp only [Bool.false_eq_true, if_false]
    split_ifs <;> omega
  · simp only [if_true]
    split_ifs <;> omega

/-- Sorting rows with a comparator that orders by a key, then by index, gives rows whose
keys never decrease. -/
theorem insertionSort_pairwise_key {ν κ : Type} [LinearOrder κ] (key : Row ν → κ)
    (r : Row ν → Row ν → Prop) [DecidableRel r]
    (h : ∀ a b, r a b ↔ key a < key b ∨ (key a = key b ∧ a.index ≤ b.index))
    (rows : List (Row ν)) :
    List.Pairwise (fun a b => key a ≤ key b) (rows.insertionSort r) := by
  have htotal : ∀ a b, r a b ∨ r b a := by
    intro a b
    rw [h a b, h b a]
    rcases lt_trichotomy (key a) (key b) with hab | hab | hab
    · exact Or.inl (Or.inl hab)
    · rcases Nat.le_total a.index b.index with hi | hi
      · exact Or.inl (Or.inr ⟨hab, hi⟩)
      · exact Or.inr (Or.inr ⟨hab.symm, hi⟩)
    · exact Or.inr (Or.inl hab)
  have htrans : ∀ a b c, r a b → r b c → r a c := by
    intro a b c
    rw [h a b, h b c, h a c]
    rintro (hab | ⟨hab, hi⟩) (hbc | ⟨hbc, hj⟩)
    · exact Or.inl (lt_trans hab hbc)
    · exact Or.inl (hbc ▸ hab)
    · exact Or.inl (hab ▸ hbc)
    · exact Or.inr ⟨hab.trans hbc, Nat.le_trans hi hj⟩
  have hs : List.Sorted r (rows.insertionSort r) :=
    @List.sorted_insertionSort (Row ν) r _ ⟨htotal⟩ ⟨fun a b c => htrans a b c⟩ rows
  refine List.Pairwise.imp ?_ hs
  intro a b hab
  rcases (h a b).mp hab with hlt | ⟨heq, _⟩
  · exact le_of_lt hlt
  · exact le_of_eq heq

/-- An ascending entry whose column compares by a key sorts the keys upwards. -/
theorem sorted_single_asc {ν κ : Type} [LinearOrder ν] [LinearOrder κ] (env : Builtins ν)
    (filtered : List (Row ν)) (s : ColumnSort) (key : Row ν → κ) (hs : s.desc = false)
    (hkey : ∀ a b, (sortingFn env filtered s.id a b < 0 ↔ key a < key b) ∧
      (sortingFn env filtered s.id a b = 0 ↔ key a = key b))
    (rows : List (Row ν)) :
    List.Pairwise (fun a b => key a ≤ key b)
      (rows.insertionSort (fun a b => compareRows env filtered [s] a b ≤ 0)) := by
  apply insertionSort_pairwise_key key
  intro a b
  rw [compareRows_single, (hkey a b).1, (hkey a b).2]
  simp [hs]

/-- A descending entry whose column compares by a key sorts the keys downwards. -/
theorem sorted_single_desc {ν κ : Type} [LinearOrder ν] [LinearOrder κ] (env : Builtins ν)
    (filtered : List (Row ν)) (s : ColumnSort) (key : Row ν → κ) (hs : s.desc = true)
    (hkey : ∀ a b, (0 < sortingFn env filtered s.id a b ↔ key b < key a) ∧
      (sortingFn env filtered s.id a b = 0 ↔ key a = key b))
    (rows : List (Row ν)) :
    List.Pairwise (fun a b => key b ≤ key a)
      (rows.insertionSort (fun a b => compareRows env filtered [s] a b ≤ 0)) := by
  have h := insertionSort_pairwise_key (fun a => OrderDual.toDual (key a))
    (fun a b => compareRows env filtered [s] a b ≤ 0)
    (by
      intro a b
      show compareRows env filtered [s] a b ≤ 0 ↔
        OrderDual.toDual (key a) < OrderDual.toDual (key b) ∨
          (OrderDual.toDual (key a) = OrderDual.toDual (key b) ∧ a.index ≤ b.index)
      rw [compareRows_single, (hkey a b).1, (hkey a b).2, OrderDual.toDual_lt_toDual]
      simp [hs]) rows
  exact h

/-- The sorted row model is a rearrangement of the rows. -/
theorem getSortedRowModel_perm {ν : Type} [LinearOrder ν] (env : Builtins ν)
    (rows : List (Row ν)) (sorting : List ColumnSort) :
    (getSortedRowModel env rows sorting).Perm rows := by
  unfold getSortedRowModel
  split_ifs
  · exact List.Perm.refl rows
  · exact List.perm_insertionSort _ rows

/-- The sorted row model for one entry on a column of the table. -/
theorem getSortedRowModel_single {ν : Type} [LinearOrder ν] (env : Builtins ν)
    (rows : List (Row ν)) (s : ColumnSort) (hs : s.id ∈ columns) :
    getSortedRowModel env rows [s] =
      rows.insertionSort (fun a b => compareRows env rows [s] a b ≤ 0) := by
  unfold getSortedRowModel
  cases rows with
  | nil => rfl
  | cons a as => simp [hs]

/-- The visible products after `handleSortChange`, in terms of the previous state. -/
theorem showProducts_handleSortChange {ν : Type} [LinearOrder ν] (env : Builtins ν)
    (c : JSVal) (st : PageState ν) :
    showProducts env (handleSortChange c st) =
      (getSortedRowModel env
        (getFilteredRowModel env (getCoreRowModel st.products) st.globalFilter)
        (handleSortChange c st).sorting).map (fun row => row.original) := by
  unfold showProducts getRowModel
  rw [(handleSortChange_frame c st).1, (handleSortChange_frame c st).2]

/-- With at most ten filtered rows the name column picks the basic comparison. -/
theorem getAutoSortingFn_basic {ν : Type} (filtered : List (Row ν))
    (h : filtered.length ≤ 10) : getAutoSortingFn filtered "name" = SortingFn.basic := by
  simp [getAutoSortingFn, List.drop_eq_nil_of_le h]

/-- With more than ten filtered rows and no digit in the names from the eleventh on, the
name column picks the text comparison. -/
theorem getAutoSortingFn_text {ν : Type} (filtered : List (Row ν))
    (h : 10 < filtered.length)
    (hd : ∀ row ∈ filtered.drop 10, hasDigit row.original.name = false) :
    getAutoSortingFn filtered "name" = SortingFn.text := by
  have hne : filtered.drop 10 ≠ [] := by
    intro h0
    have := List.drop_eq_nil_iff.mp h0
    omega
  have hany : (filtered.drop 10).any (fun row => hasDigit row.original.name) = false := by
    rw [List.any_eq_false]
    intro row hrow
    simp [hd row hrow]
  simp [getAutoSortingFn, hany, hne]

/-- Counterexample to C7 as stated: with two products 'nameAsc' shows Banana before apple,
with eleven products it shows apple before Banana; so the visible names ascend in
JavaScript's string order in the first case only, in alphabetical order in the
second case only, and no order on names (a relation in which two names that precede
each other are equal) has both visible lists ascending. -/
theorem showProducts_nameAsc_two_orders :
    showProducts sampleBuiltins (handleSortChange (JSVal.str "nameAsc") (pageOf twoNames "" [])) =
      [{ id := 2, name := "Banana", price := 2 }, { id := 1, name := "apple", price := 3 }] ∧
    showProducts sampleBuiltins
        (handleSortChange (JSVal.str "nameAsc") (pageOf elevenNames "" [])) = elevenNames ∧
    ¬ List.Pairwise (fun a b : Product Int => codeUnits a.name ≤ codeUnits b.name)
      (showProducts sampleBuiltins
        (handleSortChange (JSVal.str "nameAsc") (pageOf elevenNames "" []))) ∧
    ¬ List.Pairwise (fun a b : Product Int =>
        codeUnits (asciiLower a.name) ≤ codeUnits (asciiLower b.name))
      (showProducts sampleBuiltins
        (handleSortChange (JSVal.str "nameAsc") (pageOf twoNames "" []))) ∧
    (∀ le : String → String → Prop, (∀ a b, le a b → le b a → a = b) →
      ¬ (List.Pairwise (fun a b : Product Int => le a.name b.name)
          (showProducts sampleBuiltins
            (handleSortChange (JSVal.str "nameAsc") (pageOf twoNames "" []))) ∧
        List.Pairwise (fun a b : Product Int => le a.name b.name)
          (showProducts sampleBuiltins
            (handleSortChange (JSVal.str "nameAsc") (pageOf elevenNames "" []))))) := by
  have h2 : showProducts sampleBuiltins
      (handleSortChange (JSVal.str "nameAsc") (pageOf twoNames "" [])) =
      [{ id := 2, name := "Banana", price := 2 }, { id := 1, name := "apple", price := 3 }] := by
    decide
  have h11 : showProducts sampleBuiltins
      (handleSortChange (JSVal.str "nameAsc") (pageOf elevenNames "" [])) = elevenNames := by
    decide
  refine ⟨h2, h11, ?_, ?_, ?_⟩
  · rw [h11]
    intro hp
    have h := (List.pairwise_cons.mp hp).1 { id := 2, name := "Banana", price := 2 }
      (by simp)
    revert h
    decide
  · rw [h2]
    intro hp
    have h := (List.pairwise_cons.mp hp).1 { id := 1, name := "apple", price := 3 }
      (by simp)
    revert h
    decide
  · intro le hanti hboth
    rw [h2, h11] at hboth
    have hba : le "Banana" "apple" :=
      (List.pairwise_cons.mp hboth.1).1 { id := 1, name := "apple", price := 3 } (by simp)
    have hab : le "apple" "Banana" :=
      (List.pairwise_cons.mp hboth.2).1 { id := 2, name := "Banana", price := 2 } (by simp)
    have heq := hanti _ _ hab hba
    revert heq
    decide

/-- C7 (as amended): for every product collection, whatever the prices, every query and
every criterion, the visible products are a rearrangement of the products that the
query alone keeps; after 'priceAsc' their prices never decrease and after 'priceDesc'
they never increase; after 'nameAsc', when at most ten products pass the filter the
names never decrease in JavaScript's string order (by UTF-16 code units), and when
more than ten pass and no name from the eleventh passing product on has a digit the
lower-cased names never decrease in that order; after any other value the visible
list is the filtered list in the order of the collection.  On the collection of the
spec, with the empty query, 'priceAsc' gives Mild Salsa (5) then Hot Sauce (10). -/
theorem showProducts_sorted {ν : Type} [LinearOrder ν] (env : Builtins ν) (c : JSVal)
    (st : PageState ν) :
    (showProducts env (handleSortChange c st)).Perm
      (filteredBy env st.globalFilter st.products) ∧
    List.Pairwise (fun a b : Product ν => a.price ≤ b.price)
      (showProducts env (handleSortChange (JSVal.str "priceAsc") st)) ∧
    List.Pairwise (fun a b : Product ν => b.price ≤ a.price)
      (showProducts env (handleSortChange (JSVal.str "priceDesc") st)) ∧
    ((filteredBy env st.globalFilter st.products).length ≤ 10 →
      List.Pairwise (fun a b : Product ν => codeUnits a.name ≤ codeUnits b.name)
        (showProducts env (handleSortChange (JSVal.str "nameAsc") st))) ∧
    (10 < (filteredBy env st.globalFilter st.products).length →
      (∀ p ∈ (filteredBy env st.globalFilter st.products).drop 10, hasDigit p.name = false) →
      List.Pairwise (fun a b : Product ν =>
          codeUnits (env.toLowerCase a.name) ≤ codeUnits (env.toLowerCase b.name))
        (showProducts env (handleSortChange (JSVal.str "nameAsc") st))) ∧
    (c ∉ [JSVal.str "priceDesc", JSVal.str "priceAsc", JSVal.str "nameAsc"] →
      showProducts env (handleSortChange c st) = filteredBy env st.globalFilter st.products) ∧
    showProducts sampleBuiltins (handleSortChange (JSVal.str "priceAsc") (samplePage "" [])) =
      [{ id := 2, name := "Mild Salsa", price := 5 },
       { id := 1, name := "Hot Sauce", price := 10 }] := by
  have hmap := getFilteredRowModel_map env st.globalFilter st.products
  have hlen : (getFilteredRowModel env (getCoreRowModel st.products) st.globalFilter).length =
      (filteredBy env st.globalFilter st.products).length := by
    rw [← hmap, List.length_map]
  refine ⟨?_, ?_, ?_, ?_, ?_, ?_, by decide⟩
  · rw [showProducts_handleSortChange, ← hmap]
    exact (getSortedRowModel_perm env _ _).map _
  · rw [showProducts_handleSortChange, handleSortChange_sorting]
    simp only [reduceCtorEq, if_false, if_true, JSVal.str.injEq, String.reduceEq]
    rw [getSortedRowModel_single env _ _ (by decide), List.pairwise_map]
    refine sorted_single_asc env _ _ (fun a => a.original.price) rfl ?_ _
    intro a b
    have h := compareBasic_sign a.original.price b.original.price
    simp only [sortingFn, if_true]
    exact ⟨h.1, h.2.1⟩
  · rw [showProducts_handleSortChange, handleSortChange_sorting]
    simp only [reduceCtorEq, if_false, if_true, JSVal.str.injEq, String.reduceEq]
    rw [getSortedRowModel_single env _ _ (by decide), List.pairwise_map]
    refine sorted_single_desc env _ _ (fun a => a.original.price) rfl ?_ _
    intro a b
    have h := compareBasic_sign a.original.price b.original.price
    simp only [sortingFn, if_true]
    exact ⟨h.2.2, h.2.1⟩
  · intro hle
    rw [showProducts_handleSortChange, handleSortChange_sorting]
    simp only [reduceCtorEq, if_false, if_true, JSVal.str.injEq, String.reduceEq]
    rw [getSortedRowModel_single env _ _ (by decide), List.pairwise_map]
    refine sorted_single_asc env _ _ (fun a => codeUnits a.original.name) rfl ?_ _
    intro a b
    have h := compareBasic_sign (codeUnits a.original.name) (codeUnits b.original.name)
    have hne : ¬ ("name" = "price") := by decide
    simp only [sortingFn, hne, if_false, if_true, getAutoSortingFn_basic _ (hlen ▸ hle)]
    exact ⟨h.1, h.2.1⟩
  · intro hlt hd
    rw [showProducts_handleSortChange, handleSortChange_sorting]
    simp only [reduceCtorEq, if_false, if_true, JSVal.str.injEq, String.reduceEq]
    rw [getSortedRowModel_single env _ _ (by decide), List.pairwise_map]
    refine sorted_single_asc env _ _ (fun a => codeUnits (env.toLowerCase a.original.name))
      rfl ?_ _
    intro a b
    have h := compareBasic_sign (codeUnits (env.toLowerCase a.original.name))
      (codeUnits (env.toLowerCase b.original.name))
    have hne : ¬ ("name" = "price") := by decide
    have hd2 : ∀ row ∈ (getFilteredRowModel env (getCoreRowModel st.products)
        st.globalFilter).drop 10, hasDigit row.original.name = false := by
      intro row hrow
      apply hd
      rw [← hmap, ← List.map_drop]
      exact List.mem_map_of_mem (fun row => row.original) hrow
    simp only [sortingFn, hne, if_false, if_true,
      getAutoSortingFn_text _ (hlen ▸ hlt) hd2]
    exact ⟨h.1, h.2.1⟩
  · intro h
    simp only [List.mem_cons, List.mem_singleton, List.not_mem_nil, or_false, not_or] at h
    rw [showProducts_handleSortChange, handleSortChange_sorting, ← hmap]
    simp [h.1, h.2.1, h.2.2, getSortedRowModel]

/-- Witness of C7: two products pass the empty query, so after 'nameAsc' the visible
names ascend in JavaScript's string order. -/
theorem showProducts_sorted_witness :
    (filteredBy sampleBuiltins "" twoNames).length ≤ 10 ∧
    List.Pairwise (fun a b : Product Int => codeUnits a.name ≤ codeUnits b.name)
      (showProducts sampleBuiltins
        (handleSortChange (JSVal.str "nameAsc") (pageOf twoNames "" []))) :=
  ⟨by decide,
    (showProducts_sorted sampleBuiltins JSVal.undefined (pageOf twoNames "" [])).2.2.2.1
      (by decide)⟩

end Flux
